import Mathlib

/-
Shallow embedding of tkrisko/tfe_client (src/main.go), a CLI client for a
remote infrastructure-as-code orchestration service.  The remote service is
modelled as an oracle passed in as a function argument; the embedded
definitions mirror the control flow of the Go functions of the same name.
Process termination via log.Fatal is modelled by an explicit `fatal`
outcome, a loop that can run forever by `hang`, and a nil-pointer
dereference panic by an explicit panic outcome.
-/

/-- Outcome of a Go function that may call log.Fatal (process exit with an
error), loop forever, or return a value. -/
inductive Exec (α : Type) where
  | fatal (e : String)
  | hang
  | ret (a : α)
deriving DecidableEq

/-- One page of a paginated remote listing: the items of the page together
with the reported next-page number (`NextPage`; zero means no more pages). -/
structure Page (α : Type) where
  items : List α
  nextPage : Nat

/-- Error outcome of a single `Read` call on a Go `io.Reader`: no error,
`io.EOF`, or any other error (with its message). -/
inductive ReadErr where
  | noError
  | eof
  | other (e : String)
deriving DecidableEq

/-- Result of a single `Read(buffer)` call on a stream: the bytes actually
read (written into the front of the buffer; `n` is their count) and the
returned error value.  A stream is modelled as the list of successive read
results it delivers. -/
structure ReadResult where
  data : List Nat
  err : ReadErr
deriving DecidableEq

/-- Outcome of the log-fetching functions (main.go:317-362): a log.Fatal
exit, a panic from calling `Read` on a nil `io.Reader`, an infinite read
loop (the stream never returns `io.EOF`), or the marshalled payload
carrying the run ID and the accumulated log bytes. -/
inductive LogsOutcome where
  | fatal (e : String)
  | nilPanic
  | hang
  | payload (id : String) (logs : List Nat)
deriving DecidableEq

/-- Read loop of ParseLogs (main.go:342-348).  `buffer` models the fixed
1000-byte buffer `make([]byte, 1000)`: each `Read` overwrites its first
`n` bytes and leaves the rest (stale bytes of earlier reads) unchanged,
and the code appends `buffer[:n]` to the accumulator `acc` (Go:
`l = fmt.Sprintf("%s%s", l, buffer[:n])`).  The loop breaks only when the
read error is `io.EOF`; if the result list is exhausted without an EOF the
Go loop never terminates, modelled by `none`. -/
def parseLoop : List ReadResult → List Nat → List Nat → Option (List Nat)
  | [], _, _ => none
  | r :: rs, buffer, acc =>
      let buffer' := (r.data ++ buffer.drop r.data.length).take 1000
      let acc' := acc ++ buffer'.take r.data.length
      if r.err = ReadErr.eof then some acc' else parseLoop rs buffer' acc'

/-- ParseLogs (main.go:339-362): drains the reader with the 1000-byte
buffer loop and marshals `{ID, Logs}`.  The reader argument is `Option`
because GetLogs can pass a nil `io.Reader` (variable `logs` declared but
never assigned); the first `logs.Read(buffer)` on a nil interface value
then panics with a nil-pointer dereference, modelled by `nilPanic`. -/
def ParseLogs : Option (List ReadResult) → String → LogsOutcome
  | none, _ => LogsOutcome.nilPanic
  | some results, runID =>
      match parseLoop results (List.replicate 1000 0) [] with
      | none => LogsOutcome.hang
      | some l => LogsOutcome.payload runID l

/-- LogOperation (main.go:42): a string-tagged log-source variant. -/
abbrev LogOperation := String

/-- Constant `plan` of the const block at main.go:44-47. -/
def plan : LogOperation := "plan"

/-- Constant `apply` of the const block at main.go:44-47: the source
assigns it the string "plan", the same value as the `plan` constant. -/
def apply : LogOperation := "plan"

/-- GetLogs (main.go:317-337): reads the run (log.Fatal on error), then
dispatches on the string literals "plan" and "apply" (not on the `plan` /
`apply` constants) to pick the stream; `logs` starts as a nil `io.Reader`
and is only assigned in the two recognized branches; finally calls
ParseLogs on whatever `logs` holds.  `planStream` / `applyStream` model
the successfully opened plan / apply log endpoints of the resolved run. -/
def GetLogs (runRead : Except String Unit) (runID : String)
    (operation : LogOperation)
    (planStream applyStream : List ReadResult) : LogsOutcome :=
  match runRead with
  | Except.error e => LogsOutcome.fatal e
  | Except.ok _ =>
      let logs : Option (List ReadResult) := none
      let logs := if operation = "plan" then some planStream else logs
      let logs := if operation = "apply" then some applyStream else logs
      ParseLogs logs runID

/-- Specification-side description of what the read loop accumulates: the
concatenation of the bytes of every read result up to and including the
first one whose error is `io.EOF`, and `none` when no read returns EOF.
Non-EOF errors are not inspected at all. -/
def drained : List ReadResult → Option (List Nat)
  | [] => none
  | r :: rs =>
      if r.err = ReadErr.eof then some r.data
      else (drained rs).map (r.data ++ ·)

lemma parseLoop_eq_drained (results : List ReadResult) :
    ∀ (buffer acc : List Nat),
      (∀ r ∈ results, r.data.length ≤ 1000) →
      parseLoop results buffer acc = (drained results).map (acc ++ ·) := by
  induction results with
  | nil => intro buffer acc _; rfl
  | cons r rs ih =>
      intro buffer acc h
      have hr : r.data.length ≤ 1000 := h r (List.mem_cons_self r rs)
      have htake :
          ((r.data ++ buffer.drop r.data.length).take 1000).take r.data.length
            = r.data := by
        rw [List.take_take, Nat.min_eq_left hr, List.take_left' rfl]
      by_cases heof : r.err = ReadErr.eof
      · simp only [parseLoop, drained, heof, if_pos, htake, Option.map_some']
      · have hrest : ∀ x ∈ rs, x.data.length ≤ 1000 := by
          intro x hx; exact h x (List.mem_cons_of_mem r hx)
        simp only [parseLoop, drained, heof, if_neg, not_false_iff, htake]
        rw [ih _ _ hrest]
        cases drained rs with
        | none => rfl
        | some l => simp [List.append_assoc]

lemma ParseLogs_some_eq (results : List ReadResult) (runID : String)
    (h1000 : ∀ r ∈ results, r.data.length ≤ 1000) :
    ParseLogs (some results) runID
      = match drained results with
        | none => LogsOutcome.hang
        | some l => LogsOutcome.payload runID l := by
  show (match parseLoop results (List.replicate 1000 0) [] with
        | none => LogsOutcome.hang
        | some l => LogsOutcome.payload runID l) = _
  rw [parseLoop_eq_drained results _ _ h1000]
  cases drained results with
  | none => rfl
  | some l => simp

lemma drained_of_eof (results : List ReadResult)
    (heof : ∃ r ∈ results, r.err = ReadErr.eof) :
    ∃ l, drained results = some l := by
  induction results with
  | nil => simp at heof
  | cons r rs ih =>
      by_cases hr : r.err = ReadErr.eof
      · exact ⟨r.data, by simp [drained, hr]⟩
      · obtain ⟨x, hx, hxe⟩ := heof
        rcases List.mem_cons.mp hx with h | h
        · exact absurd (h ▸ hxe) hr
        · obtain ⟨l, hl⟩ := ih ⟨x, h, hxe⟩
          exact ⟨r.data ++ l, by simp [drained, hr, hl]⟩

/-- C3: draining a stream delivered as chunks of 1000, 1000 and 237 bytes
appends per chunk only the bytes actually read — the final short read does
not leak the 763 stale buffer bytes of the prior 1000-byte read — so the
result is the in-order concatenation of the three chunks, of length
exactly 2237. -/
theorem ParseLogs_chunks_exact (runID : String) (c1 c2 c3 : List Nat)
    (h1 : c1.length = 1000) (h2 : c2.length = 1000) (h3 : c3.length = 237) :
    ParseLogs (some [⟨c1, ReadErr.noError⟩, ⟨c2, ReadErr.noError⟩,
        ⟨c3, ReadErr.eof⟩]) runID
      = LogsOutcome.payload runID (c1 ++ c2 ++ c3)
    ∧ (c1 ++ c2 ++ c3).length = 2237 := by
  have h1000 : ∀ r ∈ [(⟨c1, ReadErr.noError⟩ : ReadResult),
      ⟨c2, ReadErr.noError⟩, ⟨c3, ReadErr.eof⟩], r.data.length ≤ 1000 := by
    intro r hr
    rcases List.mem_cons.mp hr with h | hr
    · subst h; simp [h1]
    rcases List.mem_cons.mp hr with h | hr
    · subst h; simp [h2]
    rcases List.mem_cons.mp hr with h | hr
    · subst h; simp [h3]
    · simp at hr
  refine ⟨?_, by simp [h1, h2, h3]⟩
  rw [ParseLogs_some_eq _ _ h1000]
  simp [drained, List.append_assoc]

/-- Witness for C3 at the concrete chunk sizes 1000, 1000 and 237. -/
theorem ParseLogs_chunks_exact_witness :
    ParseLogs (some [⟨List.replicate 1000 0, ReadErr.noError⟩,
        ⟨List.replicate 1000 1, ReadErr.noError⟩,
        ⟨List.replicate 237 2, ReadErr.eof⟩]) "run-1"
      = LogsOutcome.payload "run-1"
          (List.replicate 1000 0 ++ List.replicate 1000 1 ++ List.replicate 237 2)
    ∧ (List.replicate 1000 0 ++ List.replicate 1000 1
        ++ List.replicate 237 2).length = 2237 :=
  ParseLogs_chunks_exact "run-1" _ _ _ (by rw [List.length_replicate])
    (by rw [List.length_replicate]) (by rw [List.length_replicate])

/-- C10: for a stream that eventually signals io.EOF, the read loop of
ParseLogs exits only on that signal; non-EOF read errors along the way are
silently discarded (their bytes are still appended) and the outcome is a
successful payload — no read error is ever reported to the caller. -/
theorem ParseLogs_swallows_read_errors (results : List ReadResult)
    (runID : String)
    (h1000 : ∀ r ∈ results, r.data.length ≤ 1000)
    (heof : ∃ r ∈ results, r.err = ReadErr.eof) :
    ∃ l, drained results = some l
      ∧ ParseLogs (some results) runID = LogsOutcome.payload runID l := by
  obtain ⟨l, hl⟩ := drained_of_eof results heof
  exact ⟨l, hl, by rw [ParseLogs_some_eq _ _ h1000, hl]⟩

/-- Witness for C10: a stream whose middle read fails with a non-EOF error
still produces a successful payload containing all the bytes read. -/
theorem ParseLogs_swallows_read_errors_witness :
    ∃ l, drained [⟨[1, 2], ReadErr.other "connection reset"⟩,
        ⟨[3], ReadErr.eof⟩] = some l
      ∧ ParseLogs (some [⟨[1, 2], ReadErr.other "connection reset"⟩,
          ⟨[3], ReadErr.eof⟩]) "run-1" = LogsOutcome.payload "run-1" l :=
  ParseLogs_swallows_read_errors _ "run-1" (by decide) (by decide)

/-- C4 counterexample: requesting logs with the unrecognized variant tag
"refresh" does not return an empty-log payload for the run; the nil stream
handle reaches ParseLogs and the first Read on it panics. -/
theorem GetLogs_unknown_variant_cex :
    GetLogs (Except.ok ()) "run-1" "refresh" [] [] = LogsOutcome.nilPanic
    ∧ GetLogs (Except.ok ()) "run-1" "refresh" [] []
        ≠ LogsOutcome.payload "run-1" [] := by
  constructor
  · rfl
  · decide

/-- C4 amended: for every variant tag other than "plan" and "apply", after
a successful run read GetLogs opens no stream and hands the nil stream
handle to ParseLogs, which panics on its first Read — it does not return
an empty {ID, Logs} payload. -/
theorem GetLogs_unknown_variant_panics (runID : String)
    (operation : LogOperation) (planS applyS : List ReadResult)
    (hp : operation ≠ "plan") (ha : operation ≠ "apply") :
    GetLogs (Except.ok ()) runID operation planS applyS
      = LogsOutcome.nilPanic := by
  simp [GetLogs, hp, ha, ParseLogs]

/-- Witness for the amended C4 at the concrete variant tag "cost". -/
theorem GetLogs_unknown_variant_panics_witness :
    GetLogs (Except.ok ()) "run-7" "cost" [] [] = LogsOutcome.nilPanic :=
  GetLogs_unknown_variant_panics "run-7" "cost" [] []
    (by decide) (by decide)

/-- C5 counterexample: requesting apply logs does execute the apply branch
and drains the apply-phase stream — here the plan stream holds byte 1 and
the apply stream byte 2, and the output is byte 2. -/
theorem GetLogs_apply_branch_executes_cex :
    GetLogs (Except.ok ()) "run-1" "apply"
        [⟨[1], ReadErr.eof⟩] [⟨[2], ReadErr.eof⟩]
      = LogsOutcome.payload "run-1" [2] := by
  show ParseLogs (some [⟨[2], ReadErr.eof⟩]) "run-1" = _
  rw [ParseLogs_some_eq _ _ (by decide)]
  rfl

/-- C5 amended: the const block does assign the `apply` constant the same
string "plan" as the `plan` constant, but GetLogs dispatches on the string
literals "plan" and "apply" (and main passes those literals), so the
apply-phase branch does execute when the literal "apply" is requested; only
a call made with the unused `apply` constant would land in the plan
branch. -/
theorem apply_constant_duplicates_plan :
    apply = plan
    ∧ (∀ (runID : String) (planS applyS : List ReadResult),
        GetLogs (Except.ok ()) runID "apply" planS applyS
          = ParseLogs (some applyS) runID)
    ∧ (∀ (runID : String) (planS applyS : List ReadResult),
        GetLogs (Except.ok ()) runID apply planS applyS
          = ParseLogs (some planS) runID) := by
  refine ⟨rfl, ?_, ?_⟩ <;> intro runID planS applyS <;> rfl

/-- Workspace as used by this client: resolved by name, carries the remote
primary key `ID` used by run listing and creation. -/
structure WorkspaceRec where
  name : String
  id : String
deriving DecidableEq

/-- One OAuth token of an OAuth client (tfe.OAuthToken: only the ID is
used by this client). -/
structure OAuthToken where
  id : String
deriving DecidableEq

/-- OAuth client (tfe.OAuthClient): name, opaque ID and its ordered token
sequence. -/
structure OAuthClientRec where
  name : String
  id : String
  oAuthTokens : List OAuthToken
deriving DecidableEq

/-- Two-field projection built per OAuth client by ListOAuthClients
(main.go:155-160): the map with keys "Name" and "Id". -/
structure OAuthClientSummary where
  name : String
  id : String
deriving DecidableEq

/-- Run record as listed remotely; the client reads ID, Status and
CreatedAt, other fields (here represented by the message) are dropped by
the ListRuns projection. -/
structure RunRec where
  id : String
  status : String
  createdAt : String
  message : String
deriving DecidableEq

/-- Three-field projection built per run by ListRuns (main.go:253-259):
the map with keys "ID", "Status" and "CreatedAt". -/
structure RunSummary where
  id : String
  status : String
  createdAt : String
deriving DecidableEq

/-- Variable set as listed remotely (tfe.VariableSet: name and ID). -/
structure VariableSetRec where
  name : String
  id : String
deriving DecidableEq

/-- Common pagination loop of ListWorkspaces (main.go:70-82),
ListOAuthClients (main.go:150-165) and ListRuns (main.go:248-265): the
page number starts at 1 (the caller passes `p = 1`), each fetched page's
items are appended (through the per-function projection `proj`), the next
request's page number is set to the page's reported NextPage, and the loop
breaks exactly when NextPage is 0.  A fetch error is log.Fatal
(`Exec.fatal`); `fuel` bounds the number of iterations, and running out of
fuel models a NextPage chain that never reaches 0 (`Exec.hang`). -/
def listLoop {α β : Type} (fetch : Nat → Except String (Page α))
    (proj : α → β) : Nat → Nat → Exec (List β)
  | 0, _ => Exec.hang
  | fuel + 1, p =>
      match fetch p with
      | Except.error e => Exec.fatal e
      | Except.ok pg =>
          if pg.nextPage = 0 then Exec.ret (pg.items.map proj)
          else
            match listLoop fetch proj fuel pg.nextPage with
            | Exec.ret rest => Exec.ret (pg.items.map proj ++ rest)
            | out => out

/-- Model of the remote listing endpoint serving a fixed sequence of
pages: page p (1-based) holds `pages[p-1]` and reports NextPage `p + 1`,
except the last page, which reports 0; with no pages at all, page 1 is
empty and reports 0. -/
def serverFetch {α : Type} (pages : List (List α)) (p : Nat) :
    Except String (Page α) :=
  Except.ok
    { items := pages.getD (p - 1) []
      nextPage := if pages.length ≤ p then 0 else p + 1 }

/-- ListWorkspaces (main.go:62-84): pages through the workspace listing,
collecting each workspace's name. -/
def ListWorkspaces (fetch : Nat → Except String (Page WorkspaceRec))
    (fuel : Nat) : Exec (List String) :=
  listLoop fetch (fun w => w.name) fuel 1

/-- ListOAuthClients (main.go:140-171): pages through the OAuth-client
listing, collecting the {Name, Id} projection of each client. -/
def ListOAuthClients (fetch : Nat → Except String (Page OAuthClientRec))
    (fuel : Nat) : Exec (List OAuthClientSummary) :=
  listLoop fetch (fun t => { name := t.name, id := t.id }) fuel 1

/-- ListRuns (main.go:233-271): first resolves the workspace by name
(log.Fatal on error), then pages through that workspace's run listing,
projecting each run to the {ID, Status, CreatedAt} summary. -/
def ListRuns (readWorkspace : Except String WorkspaceRec)
    (fetch : Nat → Except String (Page RunRec)) (fuel : Nat) :
    Exec (List RunSummary) :=
  match readWorkspace with
  | Except.error e => Exec.fatal e
  | Except.ok _ =>
      listLoop fetch
        (fun r => { id := r.id, status := r.status, createdAt := r.createdAt })
        fuel 1

/-- GetVarialbeSetByName (main.go:390-411; the source spells the name this
way): pages through the variable-set listing starting at page 1, returns
the first item (page order, then in-page order) whose Name equals the
query, and after a page whose NextPage is 0 returns the error
"Not found". -/
def GetVarialbeSetByName (fetch : Nat → Except String (Page VariableSetRec))
    (name : String) : Nat → Nat → Exec (Except String VariableSetRec)
  | 0, _ => Exec.hang
  | fuel + 1, p =>
      match fetch p with
      | Except.error e => Exec.fatal e
      | Except.ok vss =>
          match vss.items.find? (fun r => r.name == name) with
          | some r => Exec.ret (Except.ok r)
          | none =>
              if vss.nextPage = 0 then Exec.ret (Except.error "Not found")
              else GetVarialbeSetByName fetch name fuel vss.nextPage

lemma flatten_drop_last {α : Type} (l : List (List α)) (n : Nat)
    (h : l.length ≤ n + 1) : (l.drop n).flatten = l.getD n [] := by
  induction l generalizing n with
  | nil => simp
  | cons a t ih =>
      cases n with
      | zero =>
          have ht : t = [] := by
            have : t.length = 0 := by simpa using h
            exact List.length_eq_zero.mp this
          subst ht; simp
      | succ n =>
          have : t.length ≤ n + 1 := by simpa using h
          simpa using ih n this

lemma flatten_drop_cons {α : Type} (l : List (List α)) (n : Nat)
    (h : n < l.length) :
    (l.drop n).flatten = l.getD n [] ++ (l.drop (n + 1)).flatten := by
  rw [List.drop_eq_getElem_cons h, List.flatten_cons,
    List.getD_eq_getElem l [] h]

lemma listLoop_succ_eq {α β : Type} (fetch : Nat → Except String (Page α))
    (proj : α → β) (fuel p : Nat) :
    listLoop fetch proj (fuel + 1) p
      = match fetch p with
        | Except.error e => Exec.fatal e
        | Except.ok pg =>
            if pg.nextPage = 0 then Exec.ret (pg.items.map proj)
            else
              match listLoop fetch proj fuel pg.nextPage with
              | Exec.ret rest => Exec.ret (pg.items.map proj ++ rest)
              | out => out := rfl

lemma listLoop_server {α β : Type} (pages : List (List α)) (proj : α → β)
    (fuel : Nat) :
    ∀ p, 1 ≤ p → pages.length ≤ p + fuel →
      listLoop (serverFetch pages) proj (fuel + 1) p
        = Exec.ret (((pages.drop (p - 1)).flatten).map proj) := by
  induction fuel with
  | zero =>
      intro p h1 h2
      have hle : pages.length ≤ p := by omega
      rw [listLoop_succ_eq]
      simp only [serverFetch, hle, if_true]
      rw [flatten_drop_last pages (p - 1) (by omega)]
  | succ fuel ih =>
      intro p h1 h2
      rw [listLoop_succ_eq]
      by_cases hle : pages.length ≤ p
      · simp only [serverFetch, hle, if_true]
        rw [flatten_drop_last pages (p - 1) (by omega)]
      · simp only [serverFetch, hle, if_false, Nat.succ_ne_zero]
        rw [ih (p + 1) (by omega) (by omega)]
        simp only [Nat.add_sub_cancel]
        rw [flatten_drop_cons pages (p - 1) (by omega),
          Nat.sub_add_cancel h1, List.map_append]

lemma GetVarialbeSetByName_succ_eq
    (fetch : Nat → Except String (Page VariableSetRec)) (name : String)
    (fuel p : Nat) :
    GetVarialbeSetByName fetch name (fuel + 1) p
      = match fetch p with
        | Except.error e => Exec.fatal e
        | Except.ok vss =>
            match vss.items.find? (fun r => r.name == name) with
            | some r => Exec.ret (Except.ok r)
            | none =>
                if vss.nextPage = 0 then Exec.ret (Except.error "Not found")
                else GetVarialbeSetByName fetch name fuel vss.nextPage := rfl

lemma GetVarialbeSetByName_server (pages : List (List VariableSetRec))
    (q : String) (fuel : Nat) :
    ∀ p, 1 ≤ p → pages.length ≤ p + fuel →
      GetVarialbeSetByName (serverFetch pages) q (fuel + 1) p
        = Exec.ret
            (match ((pages.drop (p - 1)).flatten).find? (fun r => r.name == q)
              with
            | some r => Except.ok r
            | none => Except.error "Not found") := by
  induction fuel with
  | zero =>
      intro p h1 h2
      have hle : pages.length ≤ p := by omega
      rw [GetVarialbeSetByName_succ_eq]
      simp only [serverFetch, hle, if_true]
      rw [flatten_drop_last pages (p - 1) (by omega)]
      cases (pages.getD (p - 1) []).find? (fun r => r.name == q) with
      | none => rfl
      | some r => rfl
  | succ fuel ih =>
      intro p h1 h2
      rw [GetVarialbeSetByName_succ_eq]
      by_cases hle : pages.length ≤ p
      · simp only [serverFetch, hle, if_true]
        rw [flatten_drop_last pages (p - 1) (by omega)]
        cases (pages.getD (p - 1) []).find? (fun r => r.name == q) with
        | none => rfl
        | some r => rfl
      · simp only [serverFetch, hle, if_false, Nat.succ_ne_zero]
        rw [flatten_drop_cons pages (p - 1) (by omega),
          Nat.sub_add_cancel h1, List.find?_append]
        cases hfind : (pages.getD (p - 1) []).find? (fun r => r.name == q) with
        | some r => simp [hfind]
        | none =>
            simp only [hfind, Option.none_or]
            rw [ih (p + 1) (by omega) (by omega)]
            simp only [Nat.add_sub_cancel]

/-- C1: each of the three listing operations starts at page 1, follows the
reported NextPage after every fetched page, stops exactly when NextPage is
0, and returns the concatenation of all pages' items in per-page order
with no duplication or omission — ListWorkspaces collecting names,
ListOAuthClients the {Name, Id} pairs, and ListRuns the {ID, Status,
CreatedAt} three-field run summaries. -/
theorem listings_pagination_complete
    (wpages : List (List WorkspaceRec)) (cpages : List (List OAuthClientRec))
    (rpages : List (List RunRec)) (w : WorkspaceRec) :
    ListWorkspaces (serverFetch wpages) (wpages.length + 1)
      = Exec.ret (wpages.flatten.map (fun x => x.name))
    ∧ ListOAuthClients (serverFetch cpages) (cpages.length + 1)
      = Exec.ret (cpages.flatten.map (fun t => { name := t.name, id := t.id }))
    ∧ ListRuns (Except.ok w) (serverFetch rpages) (rpages.length + 1)
      = Exec.ret (rpages.flatten.map
          (fun r =>
            { id := r.id, status := r.status, createdAt := r.createdAt })) := by
  refine ⟨?_, ?_, ?_⟩
  · have h := listLoop_server wpages (fun x => x.name) wpages.length 1
      (by omega) (by omega)
    simpa [ListWorkspaces] using h
  · have h := listLoop_server cpages
      (fun t => ({ name := t.name, id := t.id } : OAuthClientSummary))
      cpages.length 1 (by omega) (by omega)
    simpa [ListOAuthClients] using h
  · have h := listLoop_server rpages
      (fun r =>
        ({ id := r.id, status := r.status, createdAt := r.createdAt }
          : RunSummary))
      rpages.length 1 (by omega) (by omega)
    simpa [ListRuns] using h

/-- C2: the variable-set lookup pages through the whole listing and
returns the first item — page order, then in-page order — whose name is
exactly (byte-for-byte, hence case-sensitively) equal to the query, and
returns the error "Not found" once a page reporting NextPage 0 has been
scanned without a match; the second conjunct records that the scan
predicate is precisely string equality with the query. -/
theorem GetVarialbeSetByName_first_exact_match
    (pages : List (List VariableSetRec)) (q : String) :
    GetVarialbeSetByName (serverFetch pages) q (pages.length + 1) 1
      = Exec.ret
          (match pages.flatten.find? (fun r => r.name == q) with
          | some r => Except.ok r
          | none => Except.error "Not found")
    ∧ ∀ r : VariableSetRec, (r.name == q) = decide (r.name = q) := by
  constructor
  · have h := GetVarialbeSetByName_server pages q pages.length 1
      (by omega) (by omega)
    simpa using h
  · intro r
    by_cases h : r.name = q <;> simp [h]

/-- Variable-creation request (tfe.VariableCreateOptions as populated at
main.go:366-373). -/
structure VariableCreateOptions where
  key : String
  description : String
  hcl : Bool
  category : String
  value : String
  sensitive : Bool
deriving DecidableEq

/-- Request-building core of addTerraformVariable (main.go:364-377): the
VariableCreateOptions record submitted to the remote Variables.Create
call.  The workspace-name resolution and the remote submission themselves
are elided here; only the submitted request matters for the variable
claims, and `wsName` is kept to mirror the Go signature. -/
def addTerraformVariable (name wsName value description : String)
    (hcl sensitive : Bool) (category : String) : VariableCreateOptions :=
  { key := name
    description := description
    hcl := hcl
    category := category
    value := value
    sensitive := sensitive }

/-- AddTerraformVariable (main.go:379-382): submits the caller's flags
with category "terraform". -/
def AddTerraformVariable (name wsName value description : String)
    (hcl sensitive : Bool) : VariableCreateOptions :=
  addTerraformVariable name wsName value description hcl sensitive "terraform"

/-- AddEnvironmentVariable (main.go:384-388): takes no HCL flag at all;
it sets `hcl := false` locally and submits with category "env". -/
def AddEnvironmentVariable (name wsName value description : String)
    (sensitive : Bool) : VariableCreateOptions :=
  addTerraformVariable name wsName value description false sensitive "env"

/-- C6: the only call path creating an environment-category variable
(AddEnvironmentVariable, reached from the add_env_var CLI branch) submits
the request with HCL forced to false regardless of caller input — the
caller cannot even pass an HCL flag — and the only other variable-creation
path (AddTerraformVariable) always submits category "terraform", never
"env". -/
theorem env_variable_hcl_forced_false (name wsName value description : String)
    (sensitive hcl : Bool) :
    (AddEnvironmentVariable name wsName value description sensitive).hcl
        = false
    ∧ (AddEnvironmentVariable name wsName value description
        sensitive).category = "env"
    ∧ (AddTerraformVariable name wsName value description hcl
        sensitive).category = "terraform"
    ∧ (AddTerraformVariable name wsName value description hcl
        sensitive).category ≠ "env" := by
  refine ⟨rfl, rfl, rfl, ?_⟩
  show ("terraform" : String) ≠ "env"
  decide

/-- Run-creation request (tfe.RunCreateOptions as populated at
main.go:197-200): the resolved workspace reference and the message. -/
structure RunCreateOptionsRec where
  workspace : WorkspaceRec
  message : String
deriving DecidableEq

/-- RunPlan (main.go:191-203): resolves the workspace by name (log.Fatal
on error, so no run-creation request is ever submitted on failure),
otherwise submits one run-creation request carrying the resolved workspace
and the message.  `create` models the remote Runs.Create endpoint
assigning the new run ID; the second component of the result is the list
of run-creation requests submitted. -/
def RunPlan (readWorkspace : Except String WorkspaceRec)
    (create : RunCreateOptionsRec → String) (message : String) :
    Option String × List RunCreateOptionsRec :=
  match readWorkspace with
  | Except.error _ => (none, [])
  | Except.ok w =>
      let options : RunCreateOptionsRec := { workspace := w, message := message }
      (some (create options), [options])

/-- C7: when the workspace lookup fails, RunPlan submits no run-creation
request and returns no run ID; when it resolves to `w`, RunPlan submits
exactly one request carrying `w` and the message and returns the run ID
the remote service assigned to that request. -/
theorem RunPlan_resolves_then_creates (e : String) (w : WorkspaceRec)
    (create : RunCreateOptionsRec → String) (message : String) :
    RunPlan (Except.error e) create message = (none, [])
    ∧ RunPlan (Except.ok w) create message
        = (some (create { workspace := w, message := message }),
            [{ workspace := w, message := message }]) :=
  ⟨rfl, rfl⟩

/-- Discard request options (tfe.RunDiscardOptions, main.go:207-209). -/
structure RunDiscardOptions where
  comment : String
deriving DecidableEq

/-- Cancel request options (tfe.RunCancelOptions, main.go:221-223). -/
structure RunCancelOptions where
  comment : String
deriving DecidableEq

/-- Apply request options (tfe.RunApplyOptions, main.go:288-290). -/
structure RunApplyOptions where
  comment : String
deriving DecidableEq

/-- DiscardRun (main.go:205-217): submits one Runs.Discard request for the
run ID with the comment, with no local check of the run's status; a remote
error is returned to the caller unchanged, otherwise success.  The second
component is the list of remote requests made. -/
def DiscardRun (remote : String → RunDiscardOptions → Except String Unit)
    (runID message : String) :
    Except String Unit × List (String × RunDiscardOptions) :=
  let options : RunDiscardOptions := { comment := message }
  match remote runID options with
  | Except.error e => (Except.error e, [(runID, options)])
  | Except.ok _ => (Except.ok (), [(runID, options)])

/-- CancelRun (main.go:219-231): same shape as DiscardRun against the
Runs.Cancel endpoint. -/
def CancelRun (remote : String → RunCancelOptions → Except String Unit)
    (runID message : String) :
    Except String Unit × List (String × RunCancelOptions) :=
  let options : RunCancelOptions := { comment := message }
  match remote runID options with
  | Except.error e => (Except.error e, [(runID, options)])
  | Except.ok _ => (Except.ok (), [(runID, options)])

/-- ApplyRun (main.go:286-298): same shape as DiscardRun against the
Runs.Apply endpoint. -/
def ApplyRun (remote : String → RunApplyOptions → Except String Unit)
    (runID message : String) :
    Except String Unit × List (String × RunApplyOptions) :=
  let options : RunApplyOptions := { comment := message }
  match remote runID options with
  | Except.error e => (Except.error e, [(runID, options)])
  | Except.ok _ => (Except.ok (), [(runID, options)])

/-- C8: each of DiscardRun, CancelRun and ApplyRun submits exactly one
state-transition request — the given run ID with the comment — with no
local precondition check, and its result is exactly the remote verdict on
that one request: a remote rejection is handed back unchanged with no
further remote call, and a remote success is reported as success. -/
theorem run_transitions_one_request_verdict_propagated
    (dremote : String → RunDiscardOptions → Except String Unit)
    (cremote : String → RunCancelOptions → Except String Unit)
    (aremote : String → RunApplyOptions → Except String Unit)
    (runID message : String) :
    (DiscardRun dremote runID message).1 = dremote runID { comment := message }
    ∧ (DiscardRun dremote runID message).2
        = [(runID, { comment := message })]
    ∧ (CancelRun cremote runID message).1 = cremote runID { comment := message }
    ∧ (CancelRun cremote runID message).2
        = [(runID, { comment := message })]
    ∧ (ApplyRun aremote runID message).1 = aremote runID { comment := message }
    ∧ (ApplyRun aremote runID message).2
        = [(runID, { comment := message })] := by
  refine ⟨?_, ?_, ?_, ?_, ?_, ?_⟩ <;>
    first
    | (rcases h : dremote runID { comment := message } with e | u
       · simp [DiscardRun, h]
       · cases u; simp [DiscardRun, h])
    | (rcases h : cremote runID { comment := message } with e | u
       · simp [CancelRun, h]
       · cases u; simp [CancelRun, h])
    | (rcases h : aremote runID { comment := message } with e | u
       · simp [ApplyRun, h]
       · cases u; simp [ApplyRun, h])

/-- VCS binding options (tfe.VCSRepoOptions as populated at
main.go:183-187). -/
structure VCSRepoOptions where
  branch : String
  identifier : String
  oAuthTokenID : String
deriving DecidableEq

/-- Outcome of GetVCSProviderFromOAuthClient: the propagated read error,
an index-out-of-range panic (`OAuthTokens[0]` on an empty token slice), or
the built options. -/
inductive VCSOutcome where
  | err (e : String)
  | indexPanic
  | ret (opts : VCSRepoOptions)
deriving DecidableEq

/-- GetVCSProviderFromOAuthClient (main.go:178-189): reads the OAuth
client (returning the error before any token access on failure), then
builds VCSRepoOptions from the branch, the repository identifier and
`OAuthTokens[0].ID`, the ID of the first token of the client's ordered
token sequence; on an empty token sequence that index access panics. -/
def GetVCSProviderFromOAuthClient (readClient : Except String OAuthClientRec)
    (branch repoIdentifier : String) : VCSOutcome :=
  match readClient with
  | Except.error e => VCSOutcome.err e
  | Except.ok oauthclient =>
      match oauthclient.oAuthTokens with
      | [] => VCSOutcome.indexPanic
      | t :: _ =>
          VCSOutcome.ret
            { branch := branch
              identifier := repoIdentifier
              oAuthTokenID := t.id }

/-- C9: a failed client read is returned before any token access, and for
a client holding at least one token the built options carry exactly the
first token's ID and the construction is safe (it returns the options, no
index panic). -/
theorem vcs_binding_uses_first_token (branch repoIdentifier e n i : String)
    (t : OAuthToken) (rest : List OAuthToken) :
    GetVCSProviderFromOAuthClient (Except.error e) branch repoIdentifier
      = VCSOutcome.err e
    ∧ GetVCSProviderFromOAuthClient
        (Except.ok { name := n, id := i, oAuthTokens := t :: rest })
        branch repoIdentifier
      = VCSOutcome.ret
          { branch := branch, identifier := repoIdentifier,
            oAuthTokenID := t.id } :=
  ⟨rfl, rfl⟩
